import Mathlib

/-!
Shallow embedding of the gorm-filter condition builder (filter/rule.go).

The package turns an annotated struct (or an explicit rule list) into a
parameterized SQL condition string attached to a gorm query through
`db.Where`.  Pure string and slice manipulation is translated directly;
Go panics (strconv.ParseBool failure, an out-of-range index on a tag
entry without a colon, a malformed date_range value, failing type
assertions) are modelled as `Except.error`.
-/

namespace GormFilter

/-- Models the reflect.Value kinds the package's operators exercise:
string, int, and []string.  A slice carries a nil flag because Go's
`reflect.Value.IsZero` on a slice is `IsNil`: a nil slice is zero while
an empty non-nil slice is not. -/
inductive Value where
  | vstr (s : String)
  | vint (n : Int)
  | vslice (isNil : Bool) (elems : List String)
deriving DecidableEq

/-- reflect.Value.IsZero for the modelled kinds. -/
def Value.isZero : Value → Bool
  | .vstr s => s == ""
  | .vint n => n == 0
  | .vslice isNil _ => isNil

/-- The `rfVal.Kind() == reflect.Slice && rfVal.Len() == 0` test from
Filter (its `emptySlice` local). -/
def Value.isEmptySlice : Value → Bool
  | .vslice _ elems => elems.isEmpty
  | _ => false

/-- One struct field as seen through reflection: its json tag, its
filter tag, and its current value. -/
structure Field where
  jsonTag : String
  filterTag : String
  value : Value
deriving DecidableEq

/-- The `dest` argument after the pointer dereference in the Go code: a
struct (modelled as its field list in declaration order) or any
non-struct value. -/
inductive Dest where
  | strct (fields : List Field)
  | nonStruct
deriving DecidableEq

/-- Rule from rule.go: field name, operator, table qualifier, use-zero
flag. -/
structure Rule where
  name : String
  opt : String
  table : String
  useZero : Bool
deriving DecidableEq

/-- Model of the external query executor (gorm): a query is the list of
where-clauses attached so far, each a condition string with its bound
parameters. -/
structure DB where
  clauses : List (String × List Value)
deriving DecidableEq

/-- Models gorm's `DB.Where` for a string condition: gorm's
`Statement.BuildCondition` returns no expressions for an empty condition
string with no arguments, in which case `Where` adds no clause and the
query is unchanged; otherwise the condition and its parameters are
attached as one clause.  (The numeric-string primary-key special case of
`BuildCondition` never arises for the strings this package produces:
they are either empty or contain a space.) -/
def DB.whereQ (db : DB) (q : String) (args : List Value) : DB :=
  if q = "" && args.isEmpty then db
  else ⟨db.clauses ++ [(q, args)]⟩

/-- The cutset of `strings.Trim(filterTagStr, " ;,")`. -/
def isCutChar (c : Char) : Bool := c == ' ' || c == ';' || c == ','

/-- Whitespace trimmed by `strings.TrimSpace`. -/
def isSpaceChar (c : Char) : Bool := c == ' ' || c == '\t' || c == '\n' || c == '\r'

/-- strings.Trim(s, " ;,"). -/
def trimFilterTag (s : String) : String :=
  String.mk (((s.data.dropWhile isCutChar).reverse.dropWhile isCutChar).reverse)

/-- strings.TrimSpace. -/
def trimSpace (s : String) : String :=
  String.mk (((s.data.dropWhile isSpaceChar).reverse.dropWhile isSpaceChar).reverse)

/-- strings.Split on a single-character separator, on the character
list. -/
def splitChar (sep : Char) : List Char → List (List Char)
  | [] => [[]]
  | c :: rest =>
    if c == sep then [] :: splitChar sep rest
    else
      match splitChar sep rest with
      | [] => [[c]]
      | g :: gs => (c :: g) :: gs

/-- strings.Split on a single-character separator (both separators used
by the package, ";" and ":", are one character). -/
def splitStr (sep : Char) (s : String) : List String :=
  (splitChar sep s.data).map String.mk

/-- Whether `pat` occurs at the head of `cs`. -/
def leadMatch : List Char → List Char → Bool
  | [], _ => true
  | _ :: _, [] => false
  | p :: ps, c :: cs => p == c && leadMatch ps cs

/-- The prefix of `cs` before the first occurrence of `pat`, or `none`
when `pat` does not occur: `strings.Index` followed by slicing. -/
def cutAtMarker (pat : List Char) : List Char → Option (List Char)
  | [] => if leadMatch pat [] then some [] else none
  | c :: rest =>
    if leadMatch pat (c :: rest) then some []
    else
      match cutAtMarker pat rest with
      | none => none
      | some pre => some (c :: pre)

/-- removeOmitempty from rule.go: cut the json tag at the first
",omitempty", else at the first ",optional" (go-zero compatibility),
else return it unchanged. -/
def removeOmitempty (tag : String) : String :=
  match cutAtMarker ",omitempty".data tag.data with
  | some pre => String.mk pre
  | none =>
    match cutAtMarker ",optional".data tag.data with
    | some pre => String.mk pre
    | none => tag

/-- strconv.ParseBool: the exact set of accepted literals. -/
def parseBool (s : String) : Option Bool :=
  if s == "1" || s == "t" || s == "T" || s == "TRUE" || s == "true" || s == "True" then
    some true
  else if s == "0" || s == "f" || s == "F" || s == "FALSE" || s == "false" || s == "False" then
    some false
  else none

/-- Go map insert (`m[k] = v`): overwrite an existing key, else append. -/
def mapInsert (m : List (String × Value)) (k : String) (v : Value) : List (String × Value) :=
  match m with
  | [] => [(k, v)]
  | (k', v') :: rest => if k' == k then (k, v) :: rest else (k', v') :: mapInsert rest k v

/-- Go map lookup (`m[k]` with the ok flag). -/
def mapLookup (m : List (String × Value)) (k : String) : Option Value :=
  match m with
  | [] => none
  | (k', v') :: rest => if k' == k then some v' else mapLookup rest k

/-- One iteration of the `for _, filterTag := range filterTags` loop in
Filter: split the entry on ":", trim key and value, and dispatch on the
key.  Accessing `kv[1]` when the entry has no colon is an
index-out-of-range panic; a malformed use_zero/useZero boolean is a
ParseBool panic. -/
def applyTagEntry (rule : Rule) (entry : String) : Except String Rule :=
  match splitStr ':' entry with
  | k0 :: v0 :: _ =>
    let k := trimSpace k0
    let v := trimSpace v0
    if k = "opt" then .ok { rule with opt := v }
    else if k = "table" then .ok { rule with table := v }
    else if k = "use_zero" || k = "useZero" then
      match parseBool v with
      | some b => .ok { rule with useZero := b }
      | none => .error ("strconv.ParseBool: parsing " ++ v ++ ": invalid syntax")
    else .ok rule
  | _ => .error "runtime error: index out of range"

/-- Folds `applyTagEntry` over the ";"-separated entries of one filter
tag, propagating the first panic. -/
def applyTagEntries (rule : Rule) : List String → Except String Rule
  | [] => .ok rule
  | e :: rest =>
    match applyTagEntry rule e with
    | .error msg => .error msg
    | .ok rule' => applyTagEntries rule' rest

/-- The accumulating state of Filter's extraction loop: the
`destMap` side table and the rules gathered so far. -/
structure ExtractSt where
  destMap : List (String × Value)
  rules : List Rule
deriving DecidableEq

/-- One iteration of Filter's field loop: trim the filter tag; skip the
field when the trimmed tag is empty or "-"; otherwise resolve the json
name, record the field value in destMap, and parse the tag entries into
a Rule. -/
def processField (st : ExtractSt) (f : Field) : Except String ExtractSt :=
  let tag := trimFilterTag f.filterTag
  if tag = "" || tag = "-" then .ok st
  else
    let name := trimSpace (removeOmitempty f.jsonTag)
    let m := mapInsert st.destMap name f.value
    match applyTagEntries { name := name, opt := "", table := "", useZero := false } (splitStr ';' tag) with
    | .error e => .error e
    | .ok r => .ok { destMap := m, rules := st.rules ++ [r] }

/-- Filter's whole extraction loop over the struct fields in declaration
order. -/
def extractFields (st : ExtractSt) : List Field → Except String ExtractSt
  | [] => .ok st
  | f :: fs =>
    match processField st f with
    | .error e => .error e
    | .ok st' => extractFields st' fs

/-- The column reference of parseRule: `rule.Table + "." + rule.Name`
when a table qualifier is set, else the bare name. -/
def qualName (rule : Rule) : String :=
  if rule.table = "" then rule.name else rule.table ++ "." ++ rule.name

/-- The operator after parseRule's defaulting: an empty operator is
treated as `=`. -/
def effectiveOpt (rule : Rule) : String :=
  if rule.opt = "" then "=" else rule.opt

/-- The operator dispatch of parseRule: for a recognized operator,
the fragment and its parameters (`some`); for an unrecognized operator,
`none` (no fragment, no parameter); type-assertion failures and a
date_range value that is not a 2-element sequence are panics. -/
def renderRule (rule : Rule) (value : Value) : Except String (Option (String × List Value)) :=
  let name := qualName rule
  let opt := effectiveOpt rule
  if opt = "=" then .ok (some (name ++ " = ?", [value]))
  else if opt = "like" then
    match value with
    | .vstr s => .ok (some (name ++ " like ?", [.vstr ("%" ++ s ++ "%")]))
    | _ => .error "interface conversion: interface is not string"
  else if opt = "rlike" then .ok (some (name ++ " rlike ?", [value]))
  else if opt = ">" then .ok (some (name ++ " > ?", [value]))
  else if opt = "<" then .ok (some (name ++ " < ?", [value]))
  else if opt = ">=" then .ok (some (name ++ " >= ?", [value]))
  else if opt = "<=" then .ok (some (name ++ " <= ?", [value]))
  else if opt = "in" then .ok (some (name ++ " in (?)", [value]))
  else if opt = "date_range" then
    match value with
    | .vslice _ dates =>
      match dates with
      | [s, e] =>
        .ok (some (name ++ " between ? and ?",
          [.vstr (s ++ " 00:00:00"), .vstr (e ++ " 23:59:59")]))
      | _ => .error "date_range rule requires two values"
    | _ => .error "interface conversion: interface is not a string slice"
  else .ok none

/-- parseRule from rule.go: qualify the name, default the operator,
render the rule against the bound value, and append the fragment and
parameters to the accumulators. -/
def parseRule (rule : Rule) (rfVal : Value) (conditions : List String) (params : List Value) :
    Except String (List String × List Value) :=
  match renderRule rule rfVal with
  | .error e => .error e
  | .ok none => .ok (conditions, params)
  | .ok (some (frag, ps)) => .ok (conditions ++ [frag], params ++ ps)

/-- Filter's skip test: drop the rule when the bound value is zero or an
empty slice and UseZero is false. -/
def filterSkip (r : Rule) (v : Value) : Bool :=
  (v.isZero || v.isEmptySlice) && !r.useZero

/-- Search's skip test: drop the rule only when the bound value is
exactly zero and UseZero is false (no empty-slice special case). -/
def searchSkip (r : Rule) (v : Value) : Bool :=
  v.isZero && !r.useZero

/-- Filter's rendering loop.  Every rule name was inserted in destMap by
the extraction loop, so the lookup always succeeds there; a missing name
would be reflect's zero Value, on which IsZero panics. -/
def filterLoop (m : List (String × Value)) :
    List Rule → List String → List Value → Except String (List String × List Value)
  | [], conds, params => .ok (conds, params)
  | r :: rs, conds, params =>
    match mapLookup m r.name with
    | none => .error "reflect: reflect.Value.IsZero using zero Value"
    | some v =>
      if filterSkip r v then filterLoop m rs conds params
      else
        match parseRule r v conds params with
        | .error e => .error e
        | .ok (c, p) => filterLoop m rs c p

/-- Search's rendering loop: a rule whose name is not in destMap is
silently skipped, then the zero-value skip test, then parseRule. -/
def searchLoop (m : List (String × Value)) :
    List Rule → List String → List Value → Except String (List String × List Value)
  | [], conds, params => .ok (conds, params)
  | r :: rs, conds, params =>
    match mapLookup m r.name with
    | none => searchLoop m rs conds params
    | some v =>
      if searchSkip r v then searchLoop m rs conds params
      else
        match parseRule r v conds params with
        | .error e => .error e
        | .ok (c, p) => searchLoop m rs c p

/-- MultiSearch's rendering loop: every rule is rendered against the
same scalar value, with no skip test. -/
def multiLoop (v : Value) :
    List Rule → List String → List Value → Except String (List String × List Value)
  | [], conds, params => .ok (conds, params)
  | r :: rs, conds, params =>
    match parseRule r v conds params with
    | .error e => .error e
    | .ok (c, p) => multiLoop v rs c p

/-- strings.Join. -/
def joinSep (sep : String) : List String → String
  | [] => ""
  | [x] => x
  | x :: y :: xs => x ++ sep ++ joinSep sep (y :: xs)

/-- The condition string and parameters Filter passes to `db.Where`:
`none` models the early `return db` when no field produced a rule. -/
def filterBuild (fields : List Field) : Except String (Option (String × List Value)) :=
  match extractFields { destMap := [], rules := [] } fields with
  | .error e => .error e
  | .ok st =>
    if st.rules.isEmpty then .ok none
    else
      match filterLoop st.destMap st.rules [] [] with
      | .error e => .error e
      | .ok (conds, params) => .ok (some (joinSep " AND " conds, params))

/-- Filter from rule.go, as the transform applied to a query: non-struct
input returns the query unchanged, as does a struct yielding no rules;
otherwise the joined conjunction is attached through Where. -/
def Filter (dest : Dest) (db : DB) : Except String DB :=
  match dest with
  | .nonStruct => .ok db
  | .strct fields =>
    match filterBuild fields with
    | .error e => .error e
    | .ok none => .ok db
    | .ok (some (q, ps)) => .ok (db.whereQ q ps)

/-- Search's destMap: every field whose resolved json name is non-empty,
mapped to its value. -/
def buildDestMap (fields : List Field) : List (String × Value) :=
  fields.foldl
    (fun m f =>
      let name := trimSpace (removeOmitempty f.jsonTag)
      if name = "" then m else mapInsert m name f.value)
    []

/-- The condition string and parameters Search passes to `db.Where`:
`none` models the early `return db` on an empty rule list. -/
def searchBuild (rules : List Rule) (fields : List Field) :
    Except String (Option (String × List Value)) :=
  if rules.isEmpty then .ok none
  else
    match searchLoop (buildDestMap fields) rules [] [] with
    | .error e => .error e
    | .ok (conds, params) => .ok (some (joinSep " AND " conds, params))

/-- Search from rule.go, as the transform applied to a query. -/
def Search (rules : List Rule) (dest : Dest) (db : DB) : Except String DB :=
  match dest with
  | .nonStruct => .ok db
  | .strct fields =>
    match searchBuild rules fields with
    | .error e => .error e
    | .ok none => .ok db
    | .ok (some (q, ps)) => .ok (db.whereQ q ps)

/-- The condition string and parameters MultiSearch passes to
`db.Where`: `none` models the early returns on a blank keyword or an
empty rule list. -/
def multiSearchBuild (rules : List Rule) (dest : String) :
    Except String (Option (String × List Value)) :=
  let d := trimSpace dest
  if d = "" then .ok none
  else if rules.isEmpty then .ok none
  else
    match multiLoop (.vstr d) rules [] [] with
    | .error e => .error e
    | .ok (conds, params) => .ok (some (joinSep " OR " conds, params))

/-- MultiSearch from rule.go, as the transform applied to a query. -/
def MultiSearch (rules : List Rule) (dest : String) (db : DB) : Except String DB :=
  match multiSearchBuild rules dest with
  | .error e => .error e
  | .ok none => .ok db
  | .ok (some (q, ps)) => .ok (db.whereQ q ps)

/-- Number of `?` placeholder characters in a string. -/
def countQ (s : String) : Nat :=
  s.data.countP (fun c => c == '?')

/-- Total number of `?` placeholder characters across a fragment list. -/
def countQs (l : List String) : Nat :=
  (l.map countQ).sum

/-- The fixed operator enumeration of parseRule's switch. -/
def recognizedOpts : List String :=
  ["=", "like", "rlike", ">", "<", ">=", "<=", "in", "date_range"]

/-- The MockUserFilter example struct from the repository's examples,
holding Name "John" (json "name", filter opt:rlike) and Age 20
(json "age", filter opt:=). -/
def exampleFields : List Field :=
  [{ jsonTag := "name", filterTag := "opt:rlike", value := .vstr "John" },
   { jsonTag := "age", filterTag := "opt:=", value := .vint 20 }]

/-! ### Placeholder counting -/

theorem countQ_append (a b : String) : countQ (a ++ b) = countQ a + countQ b := by
  rcases a with ⟨l⟩
  rcases b with ⟨m⟩
  show (String.mk (l ++ m)).data.countP _ = _
  simp [countQ, List.countP_append]

theorem countQs_append (l₁ l₂ : List String) : countQs (l₁ ++ l₂) = countQs l₁ + countQs l₂ := by
  simp [countQs]

theorem countQs_single (x : String) : countQs [x] = countQ x := by
  simp [countQs]

theorem countQ_joinSep (sep : String) (hsep : countQ sep = 0) :
    ∀ l : List String, countQ (joinSep sep l) = countQs l
  | [] => by simp only [joinSep]; decide
  | [x] => by simp [joinSep, countQs]
  | x :: y :: xs => by
    have ih := countQ_joinSep sep hsep (y :: xs)
    simp only [joinSep] at *
    rw [countQ_append, countQ_append, hsep, ih]
    simp [countQs]

/-- Shared conclusion shape for the single-parameter operator branches of
renderRule. -/
theorem renderFragFacts (rule : Rule) (t : String) (v1 : Value)
    (hop : effectiveOpt rule ∈ recognizedOpts)
    (hne : effectiveOpt rule ≠ "date_range")
    (ht : countQ t = 1) :
    countQ (qualName rule ++ t) = countQ (qualName rule) + [v1].length
    ∧ effectiveOpt rule ∈ recognizedOpts
    ∧ (effectiveOpt rule = "date_range" → ([v1] : List Value).length = 2)
    ∧ (effectiveOpt rule ≠ "date_range" → ([v1] : List Value).length = 1) := by
  refine ⟨?_, hop, fun hdr => absurd hdr hne, fun _ => rfl⟩
  rw [countQ_append, ht]
  rfl

/-- What renderRule guarantees when it produces a fragment: the
fragment's placeholders are the column reference's plus one per
parameter, the operator is recognized, and date_range is the only
two-parameter operator. -/
theorem renderRule_some (rule : Rule) (v : Value) (frag : String) (ps : List Value)
    (h : renderRule rule v = .ok (some (frag, ps))) :
    countQ frag = countQ (qualName rule) + ps.length
    ∧ effectiveOpt rule ∈ recognizedOpts
    ∧ (effectiveOpt rule = "date_range" → ps.length = 2)
    ∧ (effectiveOpt rule ≠ "date_range" → ps.length = 1) := by
  by_cases h1 : effectiveOpt rule = "="
  · simp [renderRule, h1] at h
    obtain ⟨rfl, rfl⟩ := h
    exact renderFragFacts rule " = ?" v (by rw [h1]; decide) (by rw [h1]; decide) (by decide)
  by_cases h2 : effectiveOpt rule = "like"
  · cases v with
    | vstr s =>
      simp [renderRule, h1, h2] at h
      obtain ⟨rfl, rfl⟩ := h
      exact renderFragFacts rule " like ?" _ (by rw [h2]; decide) (by rw [h2]; decide) (by decide)
    | vint n => simp [renderRule, h1, h2] at h
    | vslice b xs => simp [renderRule, h1, h2] at h
  by_cases h3 : effectiveOpt rule = "rlike"
  · simp [renderRule, h1, h2, h3] at h
    obtain ⟨rfl, rfl⟩ := h
    exact renderFragFacts rule " rlike ?" v (by rw [h3]; decide) (by rw [h3]; decide) (by decide)
  by_cases h4 : effectiveOpt rule = ">"
  · simp [renderRule, h1, h2, h3, h4] at h
    obtain ⟨rfl, rfl⟩ := h
    exact renderFragFacts rule " > ?" v (by rw [h4]; decide) (by rw [h4]; decide) (by decide)
  by_cases h5 : effectiveOpt rule = "<"
  · simp [renderRule, h1, h2, h3, h4, h5] at h
    obtain ⟨rfl, rfl⟩ := h
    exact renderFragFacts rule " < ?" v (by rw [h5]; decide) (by rw [h5]; decide) (by decide)
  by_cases h6 : effectiveOpt rule = ">="
  · simp [renderRule, h1, h2, h3, h4, h5, h6] at h
    obtain ⟨rfl, rfl⟩ := h
    exact renderFragFacts rule " >= ?" v (by rw [h6]; decide) (by rw [h6]; decide) (by decide)
  by_cases h7 : effectiveOpt rule = "<="
  · simp [renderRule, h1, h2, h3, h4, h5, h6, h7] at h
    obtain ⟨rfl, rfl⟩ := h
    exact renderFragFacts rule " <= ?" v (by rw [h7]; decide) (by rw [h7]; decide) (by decide)
  by_cases h8 : effectiveOpt rule = "in"
  · simp [renderRule, h1, h2, h3, h4, h5, h6, h7, h8] at h
    obtain ⟨rfl, rfl⟩ := h
    exact renderFragFacts rule " in (?)" v (by rw [h8]; decide) (by rw [h8]; decide) (by decide)
  by_cases h9 : effectiveOpt rule = "date_range"
  · cases v with
    | vstr s => simp [renderRule, h1, h2, h3, h4, h5, h6, h7, h8, h9] at h
    | vint n => simp [renderRule, h1, h2, h3, h4, h5, h6, h7, h8, h9] at h
    | vslice b dates =>
      match dates with
      | [] => simp [renderRule, h1, h2, h3, h4, h5, h6, h7, h8, h9] at h
      | [s] => simp [renderRule, h1, h2, h3, h4, h5, h6, h7, h8, h9] at h
      | s :: e :: c :: t => simp [renderRule, h1, h2, h3, h4, h5, h6, h7, h8, h9] at h
      | [s, e] =>
        simp [renderRule, h1, h2, h3, h4, h5, h6, h7, h8, h9] at h
        obtain ⟨rfl, rfl⟩ := h
        refine ⟨?_, by rw [h9]; decide, fun _ => rfl, fun hnd => absurd h9 hnd⟩
        rw [countQ_append, (by decide : countQ " between ? and ?" = 2)]
        rfl
  simp [renderRule, h1, h2, h3, h4, h5, h6, h7, h8, h9] at h

/-- renderRule yields `none` (no fragment, no parameter) exactly on an
unrecognized operator. -/
theorem renderRule_none (rule : Rule) (v : Value)
    (h : renderRule rule v = .ok none) :
    effectiveOpt rule ∉ recognizedOpts := by
  by_cases h1 : effectiveOpt rule = "="
  · simp [renderRule, h1] at h
  by_cases h2 : effectiveOpt rule = "like"
  · cases v <;> simp [renderRule, h1, h2] at h
  by_cases h3 : effectiveOpt rule = "rlike"
  · simp [renderRule, h1, h2, h3] at h
  by_cases h4 : effectiveOpt rule = ">"
  · simp [renderRule, h1, h2, h3, h4] at h
  by_cases h5 : effectiveOpt rule = "<"
  · simp [renderRule, h1, h2, h3, h4, h5] at h
  by_cases h6 : effectiveOpt rule = ">="
  · simp [renderRule, h1, h2, h3, h4, h5, h6] at h
  by_cases h7 : effectiveOpt rule = "<="
  · simp [renderRule, h1, h2, h3, h4, h5, h6, h7] at h
  by_cases h8 : effectiveOpt rule = "in"
  · simp [renderRule, h1, h2, h3, h4, h5, h6, h7, h8] at h
  by_cases h9 : effectiveOpt rule = "date_range"
  · cases v with
    | vstr s => simp [renderRule, h1, h2, h3, h4, h5, h6, h7, h8, h9] at h
    | vint n => simp [renderRule, h1, h2, h3, h4, h5, h6, h7, h8, h9] at h
    | vslice b dates =>
      match dates with
      | [] => simp [renderRule, h1, h2, h3, h4, h5, h6, h7, h8, h9] at h
      | [s] => simp [renderRule, h1, h2, h3, h4, h5, h6, h7, h8, h9] at h
      | [s, e] => simp [renderRule, h1, h2, h3, h4, h5, h6, h7, h8, h9] at h
      | s :: e :: c :: t => simp [renderRule, h1, h2, h3, h4, h5, h6, h7, h8, h9] at h
  simp [recognizedOpts, h1, h2, h3, h4, h5, h6, h7, h8, h9]

/-- One parseRule step preserves the placeholder/parameter alignment
(provided the column reference itself contains no `?`), with date_range
contributing two placeholders and parameters and every other recognized
operator one of each. -/
theorem parseRule_step (rule : Rule) (v : Value) (conds : List String) (params : List Value)
    (c : List String) (p : List Value)
    (hq : countQ (qualName rule) = 0)
    (h : parseRule rule v conds params = .ok (c, p)) :
    countQs c + params.length = countQs conds + p.length
    ∧ (effectiveOpt rule = "date_range" →
        countQs c = countQs conds + 2 ∧ p.length = params.length + 2)
    ∧ (effectiveOpt rule ≠ "date_range" → effectiveOpt rule ∈ recognizedOpts →
        countQs c = countQs conds + 1 ∧ p.length = params.length + 1) := by
  unfold parseRule at h
  cases hr : renderRule rule v with
  | error e => rw [hr] at h; simp at h
  | ok o =>
    rw [hr] at h
    cases o with
    | none =>
      simp at h
      obtain ⟨rfl, rfl⟩ := h
      have hnr := renderRule_none rule v hr
      refine ⟨rfl, ?_, ?_⟩
      · intro hdr
        exact absurd (show effectiveOpt rule ∈ recognizedOpts by rw [hdr]; decide) hnr
      · intro _ hmem
        exact absurd hmem hnr
    | some fp =>
      obtain ⟨frag, ps⟩ := fp
      simp at h
      obtain ⟨rfl, rfl⟩ := h
      obtain ⟨hc, _, hdr2, hnd1⟩ := renderRule_some rule v frag ps hr
      have hfrag : countQ frag = ps.length := by rw [hc, hq]; simp
      refine ⟨?_, ?_, ?_⟩
      · rw [countQs_append, countQs_single, List.length_append]
        omega
      · intro hdr
        have := hdr2 hdr
        rw [countQs_append, countQs_single, List.length_append]
        omega
      · intro hnd _
        have := hnd1 hnd
        rw [countQs_append, countQs_single, List.length_append]
        omega

/-! ### Loop invariants -/

theorem filterLoop_inv (m : List (String × Value)) :
    ∀ (rules : List Rule) (conds : List String) (params : List Value)
      (c : List String) (p : List Value),
      (∀ r ∈ rules, countQ (qualName r) = 0) →
      filterLoop m rules conds params = .ok (c, p) →
      countQs c + params.length = countQs conds + p.length
  | [], conds, params, c, p, _, h => by
    simp [filterLoop] at h
    obtain ⟨rfl, rfl⟩ := h
    rfl
  | r :: rs, conds, params, c, p, hq, h => by
    simp only [filterLoop] at h
    cases hm : mapLookup m r.name with
    | none => rw [hm] at h; simp at h
    | some v =>
      rw [hm] at h
      simp only [] at h
      by_cases hs : filterSkip r v
      · rw [if_pos hs] at h
        exact filterLoop_inv m rs conds params c p (fun r' h' => hq r' (List.mem_cons_of_mem _ h')) h
      · rw [if_neg hs] at h
        cases hp : parseRule r v conds params with
        | error e => rw [hp] at h; simp at h
        | ok cp =>
          obtain ⟨c1, p1⟩ := cp
          rw [hp] at h
          have hstep := parseRule_step r v conds params c1 p1 (hq r (List.mem_cons_self ..)) hp
          have hrec := filterLoop_inv m rs c1 p1 c p (fun r' h' => hq r' (List.mem_cons_of_mem _ h')) h
          omega

theorem searchLoop_inv (m : List (String × Value)) :
    ∀ (rules : List Rule) (conds : List String) (params : List Value)
      (c : List String) (p : List Value),
      (∀ r ∈ rules, countQ (qualName r) = 0) →
      searchLoop m rules conds params = .ok (c, p) →
      countQs c + params.length = countQs conds + p.length
  | [], conds, params, c, p, _, h => by
    simp [searchLoop] at h
    obtain ⟨rfl, rfl⟩ := h
    rfl
  | r :: rs, conds, params, c, p, hq, h => by
    simp only [searchLoop] at h
    cases hm : mapLookup m r.name with
    | none =>
      rw [hm] at h
      exact searchLoop_inv m rs conds params c p (fun r' h' => hq r' (List.mem_cons_of_mem _ h')) h
    | some v =>
      rw [hm] at h
      simp only [] at h
      by_cases hs : searchSkip r v
      · rw [if_pos hs] at h
        exact searchLoop_inv m rs conds params c p (fun r' h' => hq r' (List.mem_cons_of_mem _ h')) h
      · rw [if_neg hs] at h
        cases hp : parseRule r v conds params with
        | error e => rw [hp] at h; simp at h
        | ok cp =>
          obtain ⟨c1, p1⟩ := cp
          rw [hp] at h
          have hstep := parseRule_step r v conds params c1 p1 (hq r (List.mem_cons_self ..)) hp
          have hrec := searchLoop_inv m rs c1 p1 c p (fun r' h' => hq r' (List.mem_cons_of_mem _ h')) h
          omega

theorem multiLoop_inv (v : Value) :
    ∀ (rules : List Rule) (conds : List String) (params : List Value)
      (c : List String) (p : List Value),
      (∀ r ∈ rules, countQ (qualName r) = 0) →
      multiLoop v rules conds params = .ok (c, p) →
      countQs c + params.length = countQs conds + p.length
  | [], conds, params, c, p, _, h => by
    simp [multiLoop] at h
    obtain ⟨rfl, rfl⟩ := h
    rfl
  | r :: rs, conds, params, c, p, hq, h => by
    simp only [multiLoop] at h
    cases hp : parseRule r v conds params with
    | error e => rw [hp] at h; simp at h
    | ok cp =>
      obtain ⟨c1, p1⟩ := cp
      rw [hp] at h
      have hstep := parseRule_step r v conds params c1 p1 (hq r (List.mem_cons_self ..)) hp
      have hrec := multiLoop_inv v rs c1 p1 c p (fun r' h' => hq r' (List.mem_cons_of_mem _ h')) h
      omega

/-! ### Skip-all lemmas -/

theorem filterLoop_skipAll (m : List (String × Value)) :
    ∀ (rules : List Rule) (conds : List String) (params : List Value),
      (∀ r ∈ rules, Option.any (filterSkip r) (mapLookup m r.name) = true) →
      filterLoop m rules conds params = .ok (conds, params)
  | [], _, _, _ => rfl
  | r :: rs, conds, params, hall => by
    have hr := hall r (List.mem_cons_self ..)
    cases hm : mapLookup m r.name with
    | none => rw [hm] at hr; simp [Option.any] at hr
    | some v =>
      rw [hm] at hr
      have hskip : filterSkip r v = true := by simpa [Option.any] using hr
      simp only [filterLoop, hm, hskip, if_true]
      exact filterLoop_skipAll m rs conds params (fun r' h' => hall r' (List.mem_cons_of_mem _ h'))

theorem searchLoop_skipAll (m : List (String × Value)) :
    ∀ (rules : List Rule) (conds : List String) (params : List Value),
      (∀ r ∈ rules, Option.all (searchSkip r) (mapLookup m r.name) = true) →
      searchLoop m rules conds params = .ok (conds, params)
  | [], _, _, _ => rfl
  | r :: rs, conds, params, hall => by
    have hr := hall r (List.mem_cons_self ..)
    have hrest := fun r' h' => hall r' (List.mem_cons_of_mem _ h')
    cases hm : mapLookup m r.name with
    | none =>
      simp only [searchLoop, hm]
      exact searchLoop_skipAll m rs conds params hrest
    | some v =>
      rw [hm] at hr
      have hskip : searchSkip r v = true := by simpa [Option.all] using hr
      simp only [searchLoop, hm, hskip, if_true]
      exact searchLoop_skipAll m rs conds params hrest

/-! ### Abort propagation -/

theorem applyTagEntries_abort (entry : String)
    (habort : ∀ r : Rule, ∃ e, applyTagEntry r entry = .error e) :
    ∀ (entries : List String) (r0 : Rule), entry ∈ entries →
      ∃ e, applyTagEntries r0 entries = .error e
  | [], _, hmem => absurd hmem (List.not_mem_nil _)
  | a :: rest, r0, hmem => by
    cases ha : applyTagEntry r0 a with
    | error e => exact ⟨e, by simp [applyTagEntries, ha]⟩
    | ok r' =>
      have hmem' : entry ∈ rest := by
        rcases List.mem_cons.mp hmem with h | h
        · subst h
          obtain ⟨e, he⟩ := habort r0
          rw [he] at ha
          cases ha
        · exact h
      obtain ⟨e, he⟩ := applyTagEntries_abort entry habort rest r' hmem'
      exact ⟨e, by simp [applyTagEntries, ha, he]⟩

theorem processField_abort (f : Field) (entry : String)
    (h1 : trimFilterTag f.filterTag ≠ "")
    (h2 : trimFilterTag f.filterTag ≠ "-")
    (hmem : entry ∈ splitStr ';' (trimFilterTag f.filterTag))
    (habort : ∀ r : Rule, ∃ e, applyTagEntry r entry = .error e) :
    ∀ st : ExtractSt, ∃ e, processField st f = .error e := by
  intro st
  obtain ⟨e, he⟩ := applyTagEntries_abort entry habort
    (splitStr ';' (trimFilterTag f.filterTag))
    { name := trimSpace (removeOmitempty f.jsonTag), opt := "", table := "", useZero := false }
    hmem
  exact ⟨e, by simp [processField, h1, h2, he]⟩

theorem extractFields_abort (f : Field)
    (habort : ∀ st : ExtractSt, ∃ e, processField st f = .error e) :
    ∀ (fields : List Field) (st0 : ExtractSt), f ∈ fields →
      ∃ e, extractFields st0 fields = .error e
  | [], _, hmem => absurd hmem (List.not_mem_nil _)
  | a :: rest, st0, hmem => by
    cases ha : processField st0 a with
    | error e => exact ⟨e, by simp [extractFields, ha]⟩
    | ok st' =>
      have hmem' : f ∈ rest := by
        rcases List.mem_cons.mp hmem with h | h
        · subst h
          obtain ⟨e, he⟩ := habort st0
          rw [he] at ha
          cases ha
        · exact h
      obtain ⟨e, he⟩ := extractFields_abort f habort rest st' hmem'
      exact ⟨e, by simp [extractFields, ha, he]⟩

theorem Filter_abort (fields : List Field) (db : DB)
    (h : ∃ e, extractFields { destMap := [], rules := [] } fields = .error e) :
    ∃ e, Filter (.strct fields) db = .error e := by
  obtain ⟨e, he⟩ := h
  exact ⟨e, by simp [Filter, filterBuild, he]⟩

/-! ### Build-level placeholder counting -/

theorem filterBuild_countQ (fields : List Field) (st : ExtractSt) (q : String) (ps : List Value)
    (hex : extractFields { destMap := [], rules := [] } fields = .ok st)
    (hq : ∀ r ∈ st.rules, countQ (qualName r) = 0)
    (hb : filterBuild fields = .ok (some (q, ps))) :
    countQ q = ps.length := by
  simp only [filterBuild, hex] at hb
  by_cases hr : st.rules.isEmpty
  · simp [hr] at hb
  · rw [if_neg hr] at hb
    cases hl : filterLoop st.destMap st.rules [] [] with
    | error e => rw [hl] at hb; simp at hb
    | ok cp =>
      obtain ⟨conds, params⟩ := cp
      rw [hl] at hb
      simp at hb
      obtain ⟨rfl, rfl⟩ := hb
      have hinv := filterLoop_inv st.destMap st.rules [] [] conds params hq hl
      rw [countQ_joinSep " AND " (by decide) conds]
      simpa [countQs] using hinv

theorem searchBuild_countQ (rules : List Rule) (fields : List Field) (q : String) (ps : List Value)
    (hq : ∀ r ∈ rules, countQ (qualName r) = 0)
    (hb : searchBuild rules fields = .ok (some (q, ps))) :
    countQ q = ps.length := by
  simp only [searchBuild] at hb
  by_cases hr : rules.isEmpty
  · simp [hr] at hb
  · rw [if_neg hr] at hb
    cases hl : searchLoop (buildDestMap fields) rules [] [] with
    | error e => rw [hl] at hb; simp at hb
    | ok cp =>
      obtain ⟨conds, params⟩ := cp
      rw [hl] at hb
      simp at hb
      obtain ⟨rfl, rfl⟩ := hb
      have hinv := searchLoop_inv (buildDestMap fields) rules [] [] conds params hq hl
      rw [countQ_joinSep " AND " (by decide) conds]
      simpa [countQs] using hinv

theorem multiSearchBuild_countQ (rules : List Rule) (kw : String) (q : String) (ps : List Value)
    (hq : ∀ r ∈ rules, countQ (qualName r) = 0)
    (hb : multiSearchBuild rules kw = .ok (some (q, ps))) :
    countQ q = ps.length := by
  simp only [multiSearchBuild] at hb
  by_cases hd : trimSpace kw = ""
  · simp [hd] at hb
  · rw [if_neg hd] at hb
    by_cases hr : rules.isEmpty
    · simp [hr] at hb
    · rw [if_neg hr] at hb
      cases hl : multiLoop (.vstr (trimSpace kw)) rules [] [] with
      | error e => rw [hl] at hb; simp at hb
      | ok cp =>
        obtain ⟨conds, params⟩ := cp
        rw [hl] at hb
        simp at hb
        obtain ⟨rfl, rfl⟩ := hb
        have hinv := multiLoop_inv (.vstr (trimSpace kw)) rules [] [] conds params hq hl
        rw [countQ_joinSep " OR " (by decide) conds]
        simpa [countQs] using hinv

/-! ### Claims -/

/-- Claim C1: when at least one rule is extracted but every extracted
rule is dropped by the skip policy (its bound value is zero or an empty
slice and UseZero is unset), Filter leaves the query completely
unmodified; likewise Search leaves the query unmodified whenever every
rule is dropped by its skip policy (unmatched name, or zero bound value
with UseZero unset). -/
theorem C1_all_skipped_leaves_query_unchanged (fields : List Field) (st : ExtractSt) (db : DB)
    (hex : extractFields { destMap := [], rules := [] } fields = .ok st)
    (hne : st.rules ≠ [])
    (hdrop : ∀ r ∈ st.rules, Option.any (filterSkip r) (mapLookup st.destMap r.name) = true) :
    Filter (.strct fields) db = .ok db
    ∧ ∀ (rules : List Rule) (dfields : List Field),
        (∀ r ∈ rules, Option.all (searchSkip r) (mapLookup (buildDestMap dfields) r.name) = true) →
        Search rules (.strct dfields) db = .ok db := by
  constructor
  · have hloop := filterLoop_skipAll st.destMap st.rules [] [] hdrop
    have hemp : st.rules.isEmpty = false := by
      cases hrr : st.rules with
      | nil => exact absurd hrr hne
      | cons a l => rfl
    have hbuild : filterBuild fields = .ok (some (joinSep " AND " [], [])) := by
      simp [filterBuild, hex, hemp, hloop]
    simp only [Filter, hbuild]
    rfl
  · intro rules dfields hall
    have hloop := searchLoop_skipAll (buildDestMap dfields) rules [] [] hall
    by_cases hre : rules.isEmpty = true
    · simp [Search, searchBuild, hre]
    · have hre' : rules.isEmpty = false := by simpa using hre
      have hbuild : searchBuild rules dfields = .ok (some (joinSep " AND " [], [])) := by
        simp [searchBuild, hre', hloop]
      simp only [Search, hbuild]
      rfl

/-- Claim C1 witness: a struct whose single annotated field holds the
zero string yields one rule, which is dropped, and both Filter and
Search return the query untouched. -/
theorem C1_witness :
    Filter (.strct [{ jsonTag := "name", filterTag := "opt:=", value := .vstr "" }]) ⟨[]⟩
      = .ok ⟨[]⟩
    ∧ Search [{ name := "age", opt := "", table := "", useZero := false }]
        (.strct [{ jsonTag := "age", filterTag := "", value := .vint 0 }]) ⟨[]⟩
      = .ok ⟨[]⟩ := by
  have h := C1_all_skipped_leaves_query_unchanged
    [{ jsonTag := "name", filterTag := "opt:=", value := .vstr "" }]
    { destMap := [("name", .vstr "")],
      rules := [{ name := "name", opt := "=", table := "", useZero := false }] }
    ⟨[]⟩ rfl (by decide) (by decide)
  exact ⟨h.1, h.2 [{ name := "age", opt := "", table := "", useZero := false }]
    [{ jsonTag := "age", filterTag := "", value := .vint 0 }] (by decide)⟩

/-- Claim C2 counterexample: a rule whose field name itself contains a
question mark ("a?b") renders the fragment "a?b = ?" with a single
parameter, so the number of `?` characters in the joined fragment
string (two) differs from the length of params (one) and the first `?`
of the string does not correspond to any parameter. -/
theorem C2_counterexample :
    multiSearchBuild [{ name := "a?b", opt := "=", table := "", useZero := false }] "x"
      = .ok (some ("a?b = ?", [.vstr "x"]))
    ∧ countQ "a?b = ?" = 2
    ∧ [Value.vstr "x"].length = 1 :=
  ⟨rfl, rfl, rfl⟩

/-- Claim C2 (amended): provided no rule's rendered column reference
(table-qualified name) contains a `?` character, the params slice built
by any of the three modes is exactly as long as the number of `?`
placeholders across the fragments and in the joined condition string,
each parseRule step preserving the alignment with date_range
contributing exactly two placeholders and two params and every other
recognized operator exactly one of each. -/
theorem C2_amended_placeholder_invariant :
    (∀ (rule : Rule) (v : Value) (conds : List String) (params : List Value)
       (c : List String) (p : List Value),
       countQ (qualName rule) = 0 →
       parseRule rule v conds params = Except.ok (c, p) →
       countQs c + params.length = countQs conds + p.length
       ∧ (effectiveOpt rule = "date_range" →
           countQs c = countQs conds + 2 ∧ p.length = params.length + 2)
       ∧ (effectiveOpt rule ≠ "date_range" → effectiveOpt rule ∈ recognizedOpts →
           countQs c = countQs conds + 1 ∧ p.length = params.length + 1))
    ∧ (∀ (fields : List Field) (st : ExtractSt) (q : String) (ps : List Value),
        extractFields { destMap := [], rules := [] } fields = .ok st →
        (∀ r ∈ st.rules, countQ (qualName r) = 0) →
        filterBuild fields = .ok (some (q, ps)) →
        countQ q = ps.length)
    ∧ (∀ (rules : List Rule) (fields : List Field) (q : String) (ps : List Value),
        (∀ r ∈ rules, countQ (qualName r) = 0) →
        searchBuild rules fields = .ok (some (q, ps)) →
        countQ q = ps.length)
    ∧ (∀ (rules : List Rule) (kw : String) (q : String) (ps : List Value),
        (∀ r ∈ rules, countQ (qualName r) = 0) →
        multiSearchBuild rules kw = .ok (some (q, ps)) →
        countQ q = ps.length) :=
  ⟨fun rule v conds params c p hq h => parseRule_step rule v conds params c p hq h,
   fun fields st q ps hex hq hb => filterBuild_countQ fields st q ps hex hq hb,
   fun rules fields q ps hq hb => searchBuild_countQ rules fields q ps hq hb,
   fun rules kw q ps hq hb => multiSearchBuild_countQ rules kw q ps hq hb⟩

/-- Claim C2 witness: the amended invariant evaluated on a concrete
MultiSearch build. -/
theorem C2_witness : countQ "name = ?" = [Value.vstr "x"].length :=
  C2_amended_placeholder_invariant.2.2.2
    [{ name := "name", opt := "=", table := "", useZero := false }] "x"
    "name = ?" [Value.vstr "x"] (by decide) rfl

/-- Claim C3: Filter on the example struct holding Name "John" (json
"name", annotation opt:rlike) and Age 20 (json "age", annotation opt:=)
attaches exactly the condition "name rlike ? AND age = ?" with params
["John", 20], fragments in field declaration order. -/
theorem C3_filter_example :
    Filter (.strct exampleFields) ⟨[]⟩
      = .ok ⟨[("name rlike ? AND age = ?", [.vstr "John", .vint 20])]⟩ := rfl

/-- Claim C4: Search with the explicit rules [{name, rlike}, {age, =}]
on the same example struct produces a query identical to the one Filter
produces from the struct's annotations. -/
theorem C4_search_matches_filter :
    Search [{ name := "name", opt := "rlike", table := "", useZero := false },
            { name := "age", opt := "=", table := "", useZero := false }]
        (.strct exampleFields) ⟨[]⟩
      = Filter (.strct exampleFields) ⟨[]⟩ := rfl

/-- Claim C5: MultiSearch with rules [{name, rlike}, {age, =}] and
keyword "keyword" attaches exactly "name rlike ? OR age = ?" with
params ["keyword", "keyword"]: every rule is rendered against the same
scalar keyword and the fragments are joined disjunctively. -/
theorem C5_multisearch_example :
    MultiSearch [{ name := "name", opt := "rlike", table := "", useZero := false },
                 { name := "age", opt := "=", table := "", useZero := false }]
        "keyword" ⟨[]⟩
      = .ok ⟨[("name rlike ? OR age = ?", [.vstr "keyword", .vstr "keyword"])]⟩ := rfl

/-- Claim C6: a date_range rule over a 2-element sequence [s, e] renders
"column between ? and ?" with exactly the params s ++ " 00:00:00" and
e ++ " 23:59:59"; over a sequence of any other length it aborts with the
fatal "date_range rule requires two values" error. -/
theorem C6_date_range (rule : Rule) (hopt : rule.opt = "date_range")
    (isNil : Bool) (xs : List String) (conds : List String) (params : List Value) :
    (∀ s e, xs = [s, e] →
      parseRule rule (.vslice isNil xs) conds params
        = .ok (conds ++ [qualName rule ++ " between ? and ?"],
               params ++ [.vstr (s ++ " 00:00:00"), .vstr (e ++ " 23:59:59")]))
    ∧ (xs.length ≠ 2 →
      parseRule rule (.vslice isNil xs) conds params
        = .error "date_range rule requires two values") := by
  have heff : effectiveOpt rule = "date_range" := by simp [effectiveOpt, hopt]
  constructor
  · rintro s e rfl
    simp [parseRule, renderRule, heff]
  · intro hlen
    match xs, hlen with
    | [], _ => simp [parseRule, renderRule, heff]
    | [a], _ => simp [parseRule, renderRule, heff]
    | a :: b :: c :: t, _ => simp [parseRule, renderRule, heff]

/-- Claim C6 witness: the date_range rendering evaluated on the spec's
example dates. -/
theorem C6_witness :
    parseRule { name := "d", opt := "date_range", table := "", useZero := false }
        (.vslice false ["2024-01-01", "2024-01-31"]) [] []
      = .ok (["d between ? and ?"],
             [.vstr "2024-01-01 00:00:00", .vstr "2024-01-31 23:59:59"]) := by
  have h := (C6_date_range
    { name := "d", opt := "date_range", table := "", useZero := false }
    rfl false ["2024-01-01", "2024-01-31"] [] []).1 "2024-01-01" "2024-01-31" rfl
  exact h

/-- Claim C7: the two skip policies differ exactly on empty non-nil
sequences: with UseZero unset, Filter's loop drops a rule whose bound
value is zero or an empty slice, while Search's loop drops it only on a
zero value, so a non-zero value (in particular an empty non-nil slice)
is still handed to parseRule. -/
theorem C7_skip_asymmetry (r : Rule) (m : List (String × Value)) (v : Value)
    (conds : List String) (params : List Value)
    (hz : r.useZero = false) (hlook : mapLookup m r.name = some v) :
    ((v.isZero = true ∨ v.isEmptySlice = true) →
        filterLoop m [r] conds params = .ok (conds, params))
    ∧ (v.isZero = true → searchLoop m [r] conds params = .ok (conds, params))
    ∧ (v.isZero = false → searchLoop m [r] conds params = parseRule r v conds params) := by
  refine ⟨?_, ?_, ?_⟩
  · intro hv
    have hskip : filterSkip r v = true := by
      rcases hv with hv | hv <;> simp [filterSkip, hv, hz]
    simp [filterLoop, hlook, hskip]
  · intro hv
    have hskip : searchSkip r v = true := by simp [searchSkip, hv, hz]
    simp [searchLoop, hlook, hskip]
  · intro hv
    have hskip : searchSkip r v = false := by simp [searchSkip, hv]
    cases hp : parseRule r v conds params with
    | error e => simp [searchLoop, hlook, hskip, hp]
    | ok cp =>
      obtain ⟨c, p⟩ := cp
      simp [searchLoop, hlook, hskip, hp]

/-- Claim C7 witness: an empty non-nil []string bound to an `in` rule is
dropped by Filter's loop but rendered by Search's loop. -/
theorem C7_witness :
    filterLoop [("name", Value.vslice false [])]
        [{ name := "name", opt := "in", table := "", useZero := false }] [] []
      = .ok ([], [])
    ∧ searchLoop [("name", Value.vslice false [])]
        [{ name := "name", opt := "in", table := "", useZero := false }] [] []
      = .ok (["name in (?)"], [.vslice false []]) := by
  have h := C7_skip_asymmetry
    { name := "name", opt := "in", table := "", useZero := false }
    [("name", Value.vslice false [])] (Value.vslice false []) [] [] rfl rfl
  refine ⟨h.1 (Or.inr rfl), ?_⟩
  rw [h.2.2 rfl]
  rfl

/-- Claim C8: a use_zero (or useZero) annotation entry whose value is
not a parseable boolean makes the tag-entry parser abort with the
ParseBool error for every rule state, and any struct containing a field
whose active filter tag includes such an entry makes the whole Filter
build abort with an error (no silent default, no partial result). -/
theorem C8_bad_use_zero_aborts (entry k v : String) (rest : List String)
    (hsplit : splitStr ':' entry = k :: v :: rest)
    (hk : trimSpace k = "use_zero" ∨ trimSpace k = "useZero")
    (hv : parseBool (trimSpace v) = none) :
    (∀ r : Rule, ∃ e, applyTagEntry r entry = Except.error e)
    ∧ ∀ (fields : List Field) (f : Field) (db : DB),
        f ∈ fields →
        trimFilterTag f.filterTag ≠ "" →
        trimFilterTag f.filterTag ≠ "-" →
        entry ∈ splitStr ';' (trimFilterTag f.filterTag) →
        ∃ e, Filter (.strct fields) db = Except.error e := by
  have habort : ∀ r : Rule, ∃ e, applyTagEntry r entry = .error e := by
    intro r
    refine ⟨"strconv.ParseBool: parsing " ++ trimSpace v ++ ": invalid syntax", ?_⟩
    rcases hk with hk | hk <;> simp [applyTagEntry, hsplit, hk, hv]
  refine ⟨habort, fun fields f db hmem h1 h2 hent => ?_⟩
  exact Filter_abort fields db
    (extractFields_abort f (processField_abort f entry h1 h2 hent habort) fields
      { destMap := [], rules := [] } hmem)

/-- Claim C8 witness: a field annotated use_zero:maybe aborts the whole
Filter build. -/
theorem C8_witness :
    ∃ e, Filter (.strct [{ jsonTag := "age", filterTag := "use_zero:maybe", value := .vint 1 }])
        ⟨[]⟩ = Except.error e :=
  (C8_bad_use_zero_aborts "use_zero:maybe" "use_zero" "maybe" [] rfl (Or.inl rfl) rfl).2
    [{ jsonTag := "age", filterTag := "use_zero:maybe", value := .vint 1 }]
    { jsonTag := "age", filterTag := "use_zero:maybe", value := .vint 1 }
    ⟨[]⟩ (by decide) (by decide) (by decide) (by decide)

/-- Claim C9: a rule whose operator is non-empty and outside the fixed
enumeration renders no fragment and no parameter (parseRule returns the
accumulators unchanged), while an empty operator behaves exactly as
"=". -/
theorem C9_operator_dispatch (rule : Rule) (v : Value)
    (conds : List String) (params : List Value) :
    (rule.opt ≠ "" → rule.opt ∉ recognizedOpts →
        parseRule rule v conds params = .ok (conds, params))
    ∧ (rule.opt = "" →
        parseRule rule v conds params
          = parseRule { rule with opt := "=" } v conds params) := by
  constructor
  · intro hne hnr
    have heff : effectiveOpt rule = rule.opt := by simp [effectiveOpt, hne]
    simp only [recognizedOpts, List.mem_cons, List.not_mem_nil, or_false, not_or] at hnr
    obtain ⟨n1, n2, n3, n4, n5, n6, n7, n8, n9⟩ := hnr
    simp [parseRule, renderRule, heff, n1, n2, n3, n4, n5, n6, n7, n8, n9]
  · intro he
    have heff : effectiveOpt rule = "=" := by simp [effectiveOpt, he]
    have heff2 : effectiveOpt { rule with opt := "=" } = "=" := by simp [effectiveOpt]
    have hqn : qualName { rule with opt := "=" } = qualName rule := by simp [qualName]
    simp [parseRule, renderRule, heff, heff2, hqn]

/-- Claim C9 witness: the unrecognized operator "weird" is silently
ignored and the empty operator renders as equals. -/
theorem C9_witness :
    parseRule { name := "a", opt := "weird", table := "", useZero := false } (.vint 1) [] []
      = .ok ([], [])
    ∧ parseRule { name := "a", opt := "", table := "", useZero := false } (.vint 1) [] []
      = parseRule { name := "a", opt := "=", table := "", useZero := false } (.vint 1) [] [] :=
  ⟨(C9_operator_dispatch { name := "a", opt := "weird", table := "", useZero := false }
      (.vint 1) [] []).1 (by decide) (by decide),
   (C9_operator_dispatch { name := "a", opt := "", table := "", useZero := false }
      (.vint 1) [] []).2 rfl⟩

/-- Claim C10: a filter-tag entry containing no colon (a bare key such
as "opt", or the empty entry a doubled semicolon produces in the middle
of a tag) makes the tag-entry parser abort with the index-out-of-range
error for every rule state, and any struct with an active filter tag
containing such an entry makes the whole Filter build abort instead of
ignoring the entry. -/
theorem C10_missing_colon_aborts (entry k : String)
    (hsplit : splitStr ':' entry = [k]) :
    (∀ r : Rule, ∃ e, applyTagEntry r entry = Except.error e)
    ∧ ∀ (fields : List Field) (f : Field) (db : DB),
        f ∈ fields →
        trimFilterTag f.filterTag ≠ "" →
        trimFilterTag f.filterTag ≠ "-" →
        entry ∈ splitStr ';' (trimFilterTag f.filterTag) →
        ∃ e, Filter (.strct fields) db = Except.error e := by
  have habort : ∀ r : Rule, ∃ e, applyTagEntry r entry = .error e := by
    intro r
    exact ⟨"runtime error: index out of range", by simp [applyTagEntry, hsplit]⟩
  refine ⟨habort, fun fields f db hmem h1 h2 hent => ?_⟩
  exact Filter_abort fields db
    (extractFields_abort f (processField_abort f entry h1 h2 hent habort) fields
      { destMap := [], rules := [] } hmem)

/-- Claim C10 witness: the colon-less tag entry "opt" aborts the whole
Filter build. -/
theorem C10_witness :
    ∃ e, Filter (.strct [{ jsonTag := "name", filterTag := "opt", value := .vstr "x" }])
        ⟨[]⟩ = Except.error e :=
  (C10_missing_colon_aborts "opt" "opt" rfl).2
    [{ jsonTag := "name", filterTag := "opt", value := .vstr "x" }]
    { jsonTag := "name", filterTag := "opt", value := .vstr "x" }
    ⟨[]⟩ (by decide) (by decide) (by decide) (by decide)

end GormFilter
